import Mathlib

/-!
Shallow embedding of `src/bot/cogs/verification.py` (the verification cog of a
community bot): the membership classifier, the bulk-kick authorizer, the batch
request executor, the lifecycle scheduler run, and the reminder scheduler.

Modelling conventions:
* Timestamps and durations are integers in milliseconds (UTC); the Python
  `datetime`/`timedelta` comparisons are exact, so integer arithmetic is a
  faithful model at millisecond granularity.
* Discord objects are reduced to the data the code inspects: a member is an
  identifier, a finite set of role identifiers (the default role included, as
  in `member.roles`), a bot flag and an optional join timestamp.
* A coroutine's interaction with the platform is modelled by its observable
  outcome: a kick/role request either succeeds or raises an HTTP error with a
  status code; the reaction wait is modelled over the finite list of reactions
  arriving before the deadline (an empty result models the timeout).
* `n / len(pydis.members)` raises `ZeroDivisionError` on an empty roster; the
  division is therefore embedded as an `Option`, `none` being the error branch.
-/

namespace Verification

/-- `UNVERIFIED_AFTER = 3`: days after which unverified members receive the warning role. -/
def UNVERIFIED_AFTER : ℕ := 3

/-- `KICKED_AFTER = 30`: days after which unverified members get kicked. -/
def KICKED_AFTER : ℕ := 30

/-- `KICK_CONFIRMATION_THRESHOLD = 0.01`: fraction of the guild above which a kick
batch requires staff confirmation. -/
def KICK_CONFIRMATION_THRESHOLD : ℚ := 1 / 100

/-- `REMINDER_FREQUENCY = 28`: hours between reminder messages. -/
def REMINDER_FREQUENCY : ℕ := 28

/-- Milliseconds in a day, for `timedelta(days=...)`. -/
def msPerDay : ℤ := 86400000

/-- Milliseconds in an hour, for `timedelta(hours=...)`. -/
def msPerHour : ℤ := 3600000

/-- Role identifiers the cog reads from `constants`: the guild default role
(`@everyone`) and the `@Unverified` marker role. -/
structure RoleConfig where
  defaultRole : ℕ
  unverified : ℕ
deriving DecidableEq

/-- A guild member as the cog sees it: identifier, currently held role
identifiers (the default role included), bot flag, optional join timestamp
(`joined_at` may be absent). -/
structure Member where
  id : ℕ
  roles : Finset ℕ
  bot : Bool
  joinedAt : Option ℤ
deriving DecidableEq

/-- `is_verified`: a member is verified iff it holds at least one role other
than the default role and the `@Unverified` role. -/
def is_verified (cfg : RoleConfig) (m : Member) : Bool :=
  decide (0 < (m.roles \ {cfg.unverified, cfg.defaultRole}).card)

/-- `percentage = n_members / len(pydis.members)`: `none` models the
`ZeroDivisionError` branch on an empty roster. -/
def percentage (nMembers guildSize : ℕ) : Option ℚ :=
  if guildSize = 0 then none else some ((nMembers : ℚ) / (guildSize : ℚ))

/-- The two emoji constants offered on the confirmation prompt
(`constants.Emojis.incident_actioned / incident_unactioned`), abstracted as
distinct strings. -/
def incident_actioned : String := "incident_actioned"

/-- The deny option on the confirmation prompt. -/
def incident_unactioned : String := "incident_unactioned"

/-- `options = (incident_actioned, incident_unactioned)`. -/
def promptOptions : List String := [incident_actioned, incident_unactioned]

/-- One `reaction_add` event: the message reacted to, the emoji, the reacting user. -/
structure Reaction where
  messageId : ℕ
  emoji : String
  userId : ℕ
deriving DecidableEq

/-- The `check` closure passed to `bot.wait_for`: the reaction is on the
confirmation message, uses one of the offered options, and comes from a
recorded core developer. -/
def reaction_check (confirmationMsgId : ℕ) (options : List String)
    (coreDevIds : List ℕ) (r : Reaction) : Bool :=
  confirmationMsgId == r.messageId && options.contains r.emoji && coreDevIds.contains r.userId

/-- `bot.wait_for("reaction_add", check=check, timeout=300)`: the first event in
the stream satisfying the check; `none` models `asyncio.TimeoutError`. -/
def wait_for_reaction (confirmationMsgId : ℕ) (coreDevIds : List ℕ)
    (events : List Reaction) : Option Reaction :=
  events.find? (reaction_check confirmationMsgId promptOptions coreDevIds)

/-- `_verify_kick`: returns `some (approved, promptSent)`, or `none` on the
`ZeroDivisionError` of an empty roster. If the kick ratio is below the
threshold the batch is approved with no prompt; otherwise a prompt is posted
and the answer is the first valid reaction (timeout means denial). -/
def verify_kick (nMembers guildSize : ℕ) (threshold : ℚ) (confirmationMsgId : ℕ)
    (coreDevIds : List ℕ) (events : List Reaction) : Option (Bool × Bool) :=
  match percentage nMembers guildSize with
  | none => none
  | some ratio =>
    if ratio < threshold then
      some (true, false)
    else
      match wait_for_reaction confirmationMsgId coreDevIds events with
      | none => some (false, true)
      | some choice => some (decide (choice.emoji = incident_actioned), true)

/-- Observable outcome of one request coroutine awaited by `_send_requests`:
either it completes, or it raises `discord.HTTPException` with a status code. -/
inductive ReqOutcome where
  | success
  | httpError (status : ℕ)
deriving DecidableEq

/-- One step of the `_send_requests` loop over `(n_success, bad_statuses)`. -/
def send_requests_step (acc : ℕ × Finset ℕ) (r : ReqOutcome) : ℕ × Finset ℕ :=
  match r with
  | .success => (acc.1 + 1, acc.2)
  | .httpError status => (acc.1, insert status acc.2)

/-- `_send_requests`: await every coroutine in order; an `HTTPException` adds its
status to `bad_statuses` and the loop continues; anything else increments
`n_success`. Returns `(n_success, bad_statuses)` (the Python function returns
`n_success` and logs the statuses). -/
def send_requests (coroutines : List ReqOutcome) : ℕ × Finset ℕ :=
  coroutines.foldl send_requests_step (0, ∅)

/-- A platform side effect issued by a per-member request. -/
inductive Effect where
  | dmSent (memberId : ℕ)
  | kicked (memberId : ℕ)
  | roleAdded (memberId roleId : ℕ)
deriving DecidableEq

/-- `kick_request` (inner coroutine of `_kick_members`): if the member has
verified in the meantime, do nothing; otherwise best-effort DM (a
`discord.Forbidden` is suppressed, modelled by `dmForbidden`), then kick (a
platform failure of the kick call is modelled by `kickError`). Returns the
effects issued and the outcome `_send_requests` observes. -/
def kick_request (cfg : RoleConfig) (m : Member) (dmForbidden : Bool)
    (kickError : Option ℕ) : List Effect × ReqOutcome :=
  if is_verified cfg m then ([], .success)
  else
    let dmEffects := if dmForbidden then [] else [Effect.dmSent m.id]
    match kickError with
    | some status => (dmEffects, .httpError status)
    | none => (dmEffects ++ [Effect.kicked m.id], .success)

/-- `role_request` (inner coroutine of `_give_role`): if the member has verified
in the meantime, do nothing; otherwise add the role (a platform failure is
modelled by `addError`). -/
def role_request (cfg : RoleConfig) (m : Member) (role : ℕ)
    (addError : Option ℕ) : List Effect × ReqOutcome :=
  if is_verified cfg m then ([], .success)
  else
    match addError with
    | some status => ([], .httpError status)
    | none => ([Effect.roleAdded m.id role], .success)

/-- One iteration of the `_check_members` loop: skip verified members, bots and
members with an unknown join date; otherwise route on the time since join. -/
def check_members_step (cfg : RoleConfig) (now : ℤ)
    (acc : Finset Member × Finset Member) (m : Member) :
    Finset Member × Finset Member :=
  if is_verified cfg m || m.bot || m.joinedAt.isNone then acc
  else
    match m.joinedAt with
    | none => acc
    | some joined =>
      let sinceJoin := now - joined
      if sinceJoin > (KICKED_AFTER : ℤ) * msPerDay then
        (acc.1, insert m acc.2)
      else if sinceJoin > (UNVERIFIED_AFTER : ℤ) * msPerDay ∧ cfg.unverified ∉ m.roles then
        (insert m acc.1, acc.2)
      else acc

/-- `_check_members`: partition the roster snapshot into `(for_role, for_kick)`. -/
def check_members (cfg : RoleConfig) (now : ℤ) (members : List Member) :
    Finset Member × Finset Member :=
  members.foldl (check_members_step cfg now) (∅, ∅)

/-- Condition under which the `_check_members` loop places a member in
`for_kick`: unverified, not a bot, known join date, more than `KICKED_AFTER`
days elapsed. -/
def kickEligible (cfg : RoleConfig) (now : ℤ) (m : Member) : Prop :=
  is_verified cfg m = false ∧ m.bot = false ∧
    ∃ joined, m.joinedAt = some joined ∧ now - joined > (KICKED_AFTER : ℤ) * msPerDay

/-- Condition under which the `_check_members` loop places a member in
`for_role`: unverified, not a bot, known join date, elapsed time in
`(UNVERIFIED_AFTER, KICKED_AFTER]` days, warning role not yet held. -/
def roleEligible (cfg : RoleConfig) (now : ℤ) (m : Member) : Prop :=
  is_verified cfg m = false ∧ m.bot = false ∧
    ∃ joined, m.joinedAt = some joined ∧
      now - joined ≤ (KICKED_AFTER : ℤ) * msPerDay ∧
      now - joined > (UNVERIFIED_AFTER : ℤ) * msPerDay ∧
      cfg.unverified ∉ m.roles

/-- Shape of the `role_report` string of `update_unverified_members`. -/
inductive RoleReport where
  | noUsers
  | assigned (nSuccess total : ℕ)
deriving DecidableEq

/-- Shape of the `kick_report` string of `update_unverified_members`. -/
inductive KickReport where
  | noUsers
  | notAuthorized (total : ℕ)
  | kicked (nSuccess total : ℕ)
deriving DecidableEq

/-- Observable result of one `update_unverified_members` run: the two report
lines of the modlog summary, and the set of members handed to `_kick_members`
(`none` when the kick executor was never invoked). -/
structure RunResult where
  roleReport : RoleReport
  kickReport : KickReport
  kicksIssued : Option (Finset Member)
deriving DecidableEq

/-- `update_unverified_members` (one run of the lifecycle task): classify the
roster, assign roles if needed, and kick only behind `_verify_kick`. The batch
executor results are abstracted by `roleSuccesses`/`kickSuccesses` (the success
counts `_give_role`/`_kick_members` return for a given batch); `none` models a
run aborted by an unexpected exception (empty-roster division). -/
def update_unverified_members (cfg : RoleConfig) (now : ℤ) (members : List Member)
    (confirmationMsgId : ℕ) (coreDevIds : List ℕ) (events : List Reaction)
    (roleSuccesses kickSuccesses : Finset Member → ℕ) : Option RunResult :=
  let sets := check_members cfg now members
  let roleReport :=
    if sets.1 = ∅ then RoleReport.noUsers
    else RoleReport.assigned (roleSuccesses sets.1) sets.1.card
  if sets.2 = ∅ then
    some ⟨roleReport, KickReport.noUsers, none⟩
  else
    match verify_kick sets.2.card members.length KICK_CONFIRMATION_THRESHOLD
        confirmationMsgId coreDevIds events with
    | none => none
    | some (approved, _) =>
      if approved then
        some ⟨roleReport, KickReport.kicked (kickSuccesses sets.2) sets.2.card, some sets.2⟩
      else
        some ⟨roleReport, KickReport.notAuthorized sets.2.card, none⟩

/-- `DISCORD_EPOCH` in milliseconds, as used by `discord.utils.snowflake_time`. -/
def DISCORD_EPOCH : ℤ := 1420070400000

/-- `discord.utils.snowflake_time`: the creation timestamp (milliseconds)
embedded in a message identifier. -/
def snowflake_time (id : ℕ) : ℤ :=
  ((id / 2 ^ 22 : ℕ) : ℤ) + DISCORD_EPOCH

/-- `_before_first_ping`: milliseconds to sleep before the first reminder run.
With no cached reminder, return immediately; otherwise sleep the remainder of
the interval, clamped at zero. -/
def before_first_ping (lastReminder : Option ℕ) (now : ℤ) : ℤ :=
  match lastReminder with
  | none => 0
  | some id =>
    let timeSince := now - snowflake_time id
    let toSleep := (REMINDER_FREQUENCY : ℤ) * msPerHour - timeSince
    max toSleep 0

/-- Observable event of one `ping_unverified` run. -/
inductive PingEv where
  | deleteAttempt (msgId : ℕ)
  | reminderSent (msgId : ℕ)
  | cursorSet (msgId : ℕ)
deriving DecidableEq

/-- `ping_unverified` (one run of the reminder task): best-effort delete the
cached reminder, send a new one, persist its id. `sendResult` is the outcome of
`verification.send`: `some newId` on success, `none` when the send raises (the
run aborts before `task_cache.set`). Returns the event trace and the resulting
cached cursor. -/
def ping_unverified (cursor : Option ℕ) (sendResult : Option ℕ) :
    List PingEv × Option ℕ :=
  let deleteEvents :=
    match cursor with
    | some lastId => [PingEv.deleteAttempt lastId]
    | none => []
  match sendResult with
  | none => (deleteEvents, cursor)
  | some newId =>
    (deleteEvents ++ [PingEv.reminderSent newId, PingEv.cursorSet newId], some newId)

/-! ### Theorems -/

/-- Auxiliary: on a non-empty guild the percentage is defined. -/
theorem percentage_of_pos {g : ℕ} (n : ℕ) (hg : 0 < g) :
    percentage n g = some ((n : ℚ) / (g : ℚ)) := by
  unfold percentage
  rw [if_neg (Nat.pos_iff_ne_zero.mp hg)]

/-- Auxiliary: the shape `_verify_kick` takes on a non-empty guild. -/
theorem verify_kick_of_pos {g : ℕ} (n : ℕ) (threshold : ℚ) (confirmationMsgId : ℕ)
    (coreDevIds : List ℕ) (events : List Reaction) (hg : 0 < g) :
    verify_kick n g threshold confirmationMsgId coreDevIds events =
      if (n : ℚ) / (g : ℚ) < threshold then some (true, false)
      else
        match wait_for_reaction confirmationMsgId coreDevIds events with
        | none => some (false, true)
        | some choice => some (decide (choice.emoji = incident_actioned), true) := by
  unfold verify_kick
  rw [percentage_of_pos n hg]

/-- C1: the authorizer approves with no prompt exactly on a ratio below the
threshold; `n=5, g=1000` is approved automatically; with the threshold set to
`0` automatic approval never occurs (every defined outcome has a prompt). -/
theorem bulk_kick_auto_approval (n g confirmationMsgId : ℕ) (coreDevIds : List ℕ)
    (events : List Reaction) (hg : 0 < g) :
    (verify_kick n g KICK_CONFIRMATION_THRESHOLD confirmationMsgId coreDevIds events
        = some (true, false) ↔ (n : ℚ) / (g : ℚ) < KICK_CONFIRMATION_THRESHOLD)
    ∧ verify_kick 5 1000 KICK_CONFIRMATION_THRESHOLD confirmationMsgId coreDevIds events
        = some (true, false)
    ∧ (∀ result prompted,
        verify_kick n g 0 confirmationMsgId coreDevIds events = some (result, prompted) →
        prompted = true) := by
  refine ⟨?_, ?_, ?_⟩
  · rw [verify_kick_of_pos n KICK_CONFIRMATION_THRESHOLD confirmationMsgId coreDevIds events hg]
    by_cases h : (n : ℚ) / (g : ℚ) < KICK_CONFIRMATION_THRESHOLD
    · simp [h]
    · rw [if_neg h]
      simp only [iff_false, h, not_false_iff]
      rcases wait_for_reaction confirmationMsgId coreDevIds events with _ | choice <;> simp
  · rw [verify_kick_of_pos 5 KICK_CONFIRMATION_THRESHOLD confirmationMsgId coreDevIds events
      (show (0 : ℕ) < 1000 by norm_num)]
    norm_num [KICK_CONFIRMATION_THRESHOLD]
  · intro result prompted
    rw [verify_kick_of_pos n 0 confirmationMsgId coreDevIds events hg]
    have hnonneg : ¬ ((n : ℚ) / (g : ℚ) < 0) :=
      not_lt.mpr (div_nonneg (Nat.cast_nonneg n) (Nat.cast_nonneg g))
    rw [if_neg hnonneg]
    rcases wait_for_reaction confirmationMsgId coreDevIds events with _ | choice <;>
      · intro h
        simpa using congrArg (Option.map Prod.snd) h

/-- C1 witness: on a guild of 1000 members, a batch of 5 is approved
automatically. -/
theorem bulk_kick_auto_approval_witness :
    verify_kick 5 1000 KICK_CONFIRMATION_THRESHOLD 0 [] [] = some (true, false) :=
  (bulk_kick_auto_approval 5 1000 0 [] [] (by norm_num)).2.1

/-- C2: once a prompt is posted, a timeout (no valid reaction in the stream)
yields denial; the first reaction passing the check is on the prompt message,
uses one of the two options, comes from a recorded core developer, and alone
determines the outcome (approved iff it is the approve emoji); any reaction
failing the check is skipped and the wait continues. -/
theorem bulk_kick_prompt_outcome (n g confirmationMsgId : ℕ) (coreDevIds : List ℕ)
    (events : List Reaction) (hg : 0 < g)
    (hprompt : ¬ ((n : ℚ) / (g : ℚ) < KICK_CONFIRMATION_THRESHOLD)) :
    (events.find? (reaction_check confirmationMsgId promptOptions coreDevIds) = none →
      verify_kick n g KICK_CONFIRMATION_THRESHOLD confirmationMsgId coreDevIds events
        = some (false, true))
    ∧ (∀ r, events.find? (reaction_check confirmationMsgId promptOptions coreDevIds) = some r →
        r.messageId = confirmationMsgId ∧ r.emoji ∈ promptOptions ∧ r.userId ∈ coreDevIds ∧
        verify_kick n g KICK_CONFIRMATION_THRESHOLD confirmationMsgId coreDevIds events
          = some (decide (r.emoji = incident_actioned), true))
    ∧ (∀ bad rest, reaction_check confirmationMsgId promptOptions coreDevIds bad = false →
        verify_kick n g KICK_CONFIRMATION_THRESHOLD confirmationMsgId coreDevIds (bad :: rest)
          = verify_kick n g KICK_CONFIRMATION_THRESHOLD confirmationMsgId coreDevIds rest) := by
  refine ⟨?_, ?_, ?_⟩
  · intro hnone
    rw [verify_kick_of_pos n KICK_CONFIRMATION_THRESHOLD confirmationMsgId coreDevIds events hg,
      if_neg hprompt]
    unfold wait_for_reaction
    rw [hnone]
  · intro r hr
    have hcheck : reaction_check confirmationMsgId promptOptions coreDevIds r = true :=
      List.find?_some hr
    unfold reaction_check at hcheck
    simp only [Bool.and_eq_true, beq_iff_eq] at hcheck
    obtain ⟨⟨hmsg, hemoji⟩, huser⟩ := hcheck
    refine ⟨hmsg.symm, by simpa using hemoji, by simpa using huser, ?_⟩
    rw [verify_kick_of_pos n KICK_CONFIRMATION_THRESHOLD confirmationMsgId coreDevIds events hg,
      if_neg hprompt]
    unfold wait_for_reaction
    rw [hr]
  · intro bad rest hbad
    rw [verify_kick_of_pos n KICK_CONFIRMATION_THRESHOLD confirmationMsgId coreDevIds (bad :: rest) hg,
      verify_kick_of_pos n KICK_CONFIRMATION_THRESHOLD confirmationMsgId coreDevIds rest hg,
      if_neg hprompt, if_neg hprompt]
    unfold wait_for_reaction
    rw [List.find?_cons_of_neg _ (by simp [hbad])]

/-- C2 witness: with 50 of 1000 members slated, an approve reaction from
core developer `3` on the prompt message `7` authorizes the kick. -/
theorem bulk_kick_prompt_outcome_witness :
    verify_kick 50 1000 KICK_CONFIRMATION_THRESHOLD 7 [3]
      [⟨7, incident_actioned, 3⟩] = some (true, true) := by
  have h := (bulk_kick_prompt_outcome 50 1000 7 [3] [⟨7, incident_actioned, 3⟩]
      (by norm_num) (by norm_num [KICK_CONFIRMATION_THRESHOLD])).2.1
      ⟨7, incident_actioned, 3⟩ (by decide)
  simpa using h.2.2.2

/-- C9: the authorizer divides by the guild population with no guard: the run
is defined iff the guild is non-empty, and the percentage computation hits its
error branch exactly on an empty roster. -/
theorem bulk_kick_division_guard (n g confirmationMsgId : ℕ) (coreDevIds : List ℕ)
    (events : List Reaction) :
    ((verify_kick n g KICK_CONFIRMATION_THRESHOLD confirmationMsgId coreDevIds
        events).isSome ↔ 0 < g)
    ∧ (percentage n g = none ↔ g = 0) := by
  constructor
  · rcases Nat.eq_zero_or_pos g with hg | hg
    · subst hg
      simp [verify_kick, percentage]
    · rw [verify_kick_of_pos n KICK_CONFIRMATION_THRESHOLD confirmationMsgId coreDevIds events hg]
      simp only [hg, iff_true]
      split
      · rfl
      · rcases wait_for_reaction confirmationMsgId coreDevIds events with _ | choice <;> rfl
  · unfold percentage
    split <;> simp_all

/-- Auxiliary: membership in the `for_kick` accumulator after one loop step. -/
theorem check_members_step_snd (cfg : RoleConfig) (now : ℤ)
    (acc : Finset Member × Finset Member) (m x : Member) :
    x ∈ (check_members_step cfg now acc m).2 ↔
      x ∈ acc.2 ∨ (x = m ∧ kickEligible cfg now x) := by
  unfold check_members_step
  split
  · next hskip =>
    have hno : ¬ (x = m ∧ kickEligible cfg now x) := by
      rintro ⟨rfl, hver, hbot, joined, hj, -⟩
      rw [hver, hbot, hj] at hskip
      simp at hskip
    exact (or_iff_left hno).symm
  · next hskip =>
    split
    · next hj =>
      have hno : ¬ (x = m ∧ kickEligible cfg now x) := by
        rintro ⟨rfl, -, -, joined, hj', -⟩
        rw [hj] at hj'
        exact Option.noConfusion hj'
      exact (or_iff_left hno).symm
    · next joined hj =>
      simp only [Bool.or_eq_true, not_or, Bool.not_eq_true] at hskip
      obtain ⟨⟨hver, hbot⟩, -⟩ := hskip
      by_cases hkick : now - joined > (KICKED_AFTER : ℤ) * msPerDay
      · rw [if_pos hkick]
        show x ∈ insert m acc.2 ↔ _
        rw [Finset.mem_insert]
        constructor
        · rintro (rfl | hx)
          · exact Or.inr ⟨rfl, hver, hbot, joined, hj, hkick⟩
          · exact Or.inl hx
        · rintro (hx | ⟨rfl, -⟩)
          · exact Or.inr hx
          · exact Or.inl rfl
      · rw [if_neg hkick]
        have hno : ¬ (x = m ∧ kickEligible cfg now x) := by
          rintro ⟨rfl, -, -, joined', hj', hkick'⟩
          rw [hj] at hj'
          cases hj'
          exact hkick hkick'
        split
        · exact (or_iff_left hno).symm
        · exact (or_iff_left hno).symm

/-- Auxiliary: membership in the `for_role` accumulator after one loop step. -/
theorem check_members_step_fst (cfg : RoleConfig) (now : ℤ)
    (acc : Finset Member × Finset Member) (m x : Member) :
    x ∈ (check_members_step cfg now acc m).1 ↔
      x ∈ acc.1 ∨ (x = m ∧ roleEligible cfg now x) := by
  unfold check_members_step
  split
  · next hskip =>
    have hno : ¬ (x = m ∧ roleEligible cfg now x) := by
      rintro ⟨rfl, hver, hbot, joined, hj, -⟩
      rw [hver, hbot, hj] at hskip
      simp at hskip
    exact (or_iff_left hno).symm
  · next hskip =>
    split
    · next hj =>
      have hno : ¬ (x = m ∧ roleEligible cfg now x) := by
        rintro ⟨rfl, -, -, joined, hj', -⟩
        rw [hj] at hj'
        exact Option.noConfusion hj'
      exact (or_iff_left hno).symm
    · next joined hj =>
      simp only [Bool.or_eq_true, not_or, Bool.not_eq_true] at hskip
      obtain ⟨⟨hver, hbot⟩, -⟩ := hskip
      by_cases hkick : now - joined > (KICKED_AFTER : ℤ) * msPerDay
      · rw [if_pos hkick]
        have hno : ¬ (x = m ∧ roleEligible cfg now x) := by
          rintro ⟨rfl, -, -, joined', hj', hle, -⟩
          rw [hj] at hj'
          cases hj'
          exact absurd hkick (not_lt.mpr hle)
        exact (or_iff_left hno).symm
      · rw [if_neg hkick]
        by_cases hwarn : now - joined > (UNVERIFIED_AFTER : ℤ) * msPerDay ∧ cfg.unverified ∉ m.roles
        · rw [if_pos hwarn]
          show x ∈ insert m acc.1 ↔ _
          rw [Finset.mem_insert]
          constructor
          · rintro (rfl | hx)
            · exact Or.inr ⟨rfl, hver, hbot, joined, hj, not_lt.mp hkick, hwarn.1, hwarn.2⟩
            · exact Or.inl hx
          · rintro (hx | ⟨rfl, -⟩)
            · exact Or.inr hx
            · exact Or.inl rfl
        · rw [if_neg hwarn]
          have hno : ¬ (x = m ∧ roleEligible cfg now x) := by
            rintro ⟨rfl, -, -, joined', hj', -, hgt, hrole⟩
            rw [hj] at hj'
            cases hj'
            exact hwarn ⟨hgt, hrole⟩
          exact (or_iff_left hno).symm

/-- Auxiliary: the `for_kick` component of the classifier fold. -/
theorem check_members_foldl_snd (cfg : RoleConfig) (now : ℤ) (members : List Member)
    (acc : Finset Member × Finset Member) (x : Member) :
    x ∈ (members.foldl (check_members_step cfg now) acc).2 ↔
      x ∈ acc.2 ∨ (x ∈ members ∧ kickEligible cfg now x) := by
  induction members generalizing acc with
  | nil => simp
  | cons m ms ih =>
    rw [List.foldl_cons, ih, check_members_step_snd]
    simp only [List.mem_cons]
    constructor
    · rintro ((hx | ⟨rfl, hk⟩) | ⟨hx, hk⟩)
      · exact Or.inl hx
      · exact Or.inr ⟨Or.inl rfl, hk⟩
      · exact Or.inr ⟨Or.inr hx, hk⟩
    · rintro (hx | ⟨rfl | hx, hk⟩)
      · exact Or.inl (Or.inl hx)
      · exact Or.inl (Or.inr ⟨rfl, hk⟩)
      · exact Or.inr ⟨hx, hk⟩

/-- Auxiliary: the `for_role` component of the classifier fold. -/
theorem check_members_foldl_fst (cfg : RoleConfig) (now : ℤ) (members : List Member)
    (acc : Finset Member × Finset Member) (x : Member) :
    x ∈ (members.foldl (check_members_step cfg now) acc).1 ↔
      x ∈ acc.1 ∨ (x ∈ members ∧ roleEligible cfg now x) := by
  induction members generalizing acc with
  | nil => simp
  | cons m ms ih =>
    rw [List.foldl_cons, ih, check_members_step_fst]
    simp only [List.mem_cons]
    constructor
    · rintro ((hx | ⟨rfl, hk⟩) | ⟨hx, hk⟩)
      · exact Or.inl hx
      · exact Or.inr ⟨Or.inl rfl, hk⟩
      · exact Or.inr ⟨Or.inr hx, hk⟩
    · rintro (hx | ⟨rfl | hx, hk⟩)
      · exact Or.inl (Or.inl hx)
      · exact Or.inl (Or.inr ⟨rfl, hk⟩)
      · exact Or.inr ⟨hx, hk⟩

/-- Auxiliary: membership in `for_kick`. -/
theorem mem_check_members_snd (cfg : RoleConfig) (now : ℤ) (members : List Member)
    (x : Member) :
    x ∈ (check_members cfg now members).2 ↔ x ∈ members ∧ kickEligible cfg now x := by
  unfold check_members
  rw [check_members_foldl_snd]
  simp

/-- Auxiliary: membership in `for_role`. -/
theorem mem_check_members_fst (cfg : RoleConfig) (now : ℤ) (members : List Member)
    (x : Member) :
    x ∈ (check_members cfg now members).1 ↔ x ∈ members ∧ roleEligible cfg now x := by
  unfold check_members
  rw [check_members_foldl_fst]
  simp

/-- C4: placement of each roster member by the classifier. Verified members,
bots and members with no known join date land in neither set; otherwise, with
`elapsed = now - joined`, the member is in `for_kick` exactly when
`elapsed > 30 days`, in `for_role` exactly when `3 days < elapsed ≤ 30 days`
and the warning role is not yet held, and in neither set when
`elapsed ≤ 3 days`. -/
theorem classifier_placement (cfg : RoleConfig) (now : ℤ) (members : List Member)
    (m : Member) (hm : m ∈ members) :
    ((is_verified cfg m = true ∨ m.bot = true ∨ m.joinedAt = none) →
      m ∉ (check_members cfg now members).1 ∧ m ∉ (check_members cfg now members).2)
    ∧ (∀ joined, m.joinedAt = some joined →
        is_verified cfg m = false → m.bot = false →
        ((m ∈ (check_members cfg now members).2 ↔
            now - joined > (KICKED_AFTER : ℤ) * msPerDay)
        ∧ (m ∈ (check_members cfg now members).1 ↔
            ((UNVERIFIED_AFTER : ℤ) * msPerDay < now - joined ∧
             now - joined ≤ (KICKED_AFTER : ℤ) * msPerDay ∧
             cfg.unverified ∉ m.roles))
        ∧ (now - joined ≤ (UNVERIFIED_AFTER : ℤ) * msPerDay →
            m ∉ (check_members cfg now members).1 ∧
            m ∉ (check_members cfg now members).2))) := by
  constructor
  · intro hskip
    constructor
    · rw [mem_check_members_fst]
      rintro ⟨-, hver, hbot, joined, hj, -⟩
      rcases hskip with h | h | h
      · rw [hver] at h
        exact Bool.noConfusion h
      · rw [hbot] at h
        exact Bool.noConfusion h
      · rw [hj] at h
        exact Option.noConfusion h
    · rw [mem_check_members_snd]
      rintro ⟨-, hver, hbot, joined, hj, -⟩
      rcases hskip with h | h | h
      · rw [hver] at h
        exact Bool.noConfusion h
      · rw [hbot] at h
        exact Bool.noConfusion h
      · rw [hj] at h
        exact Option.noConfusion h
  · intro joined hj hver hbot
    refine ⟨?_, ?_, ?_⟩
    · rw [mem_check_members_snd]
      constructor
      · rintro ⟨-, -, -, joined', hj', hkick⟩
        rw [hj] at hj'
        cases hj'
        exact hkick
      · intro hkick
        exact ⟨hm, hver, hbot, joined, hj, hkick⟩
    · rw [mem_check_members_fst]
      constructor
      · rintro ⟨-, -, -, joined', hj', hle, hgt, hrole⟩
        rw [hj] at hj'
        cases hj'
        exact ⟨hgt, hle, hrole⟩
      · rintro ⟨hgt, hle, hrole⟩
        exact ⟨hm, hver, hbot, joined, hj, hle, hgt, hrole⟩
    · intro hearly
      constructor
      · rw [mem_check_members_fst]
        rintro ⟨-, -, -, joined', hj', -, hgt, -⟩
        rw [hj] at hj'
        cases hj'
        exact absurd hgt (not_lt.mpr hearly)
      · rw [mem_check_members_snd]
        rintro ⟨-, -, -, joined', hj', hkick⟩
        rw [hj] at hj'
        cases hj'
        have hlt : (UNVERIFIED_AFTER : ℤ) * msPerDay < (KICKED_AFTER : ℤ) * msPerDay := by
          norm_num [UNVERIFIED_AFTER, KICKED_AFTER, msPerDay]
        exact absurd hkick (not_lt.mpr (le_of_lt (lt_of_le_of_lt hearly hlt)))

/-- C4 witness: a member who joined 31 days ago, holding only the default role,
is classified for kicking. -/
theorem classifier_placement_witness :
    (⟨1, {0}, false, some 0⟩ : Member) ∈
      (check_members ⟨0, 99⟩ (31 * msPerDay) [⟨1, {0}, false, some 0⟩]).2 := by
  have h := (classifier_placement ⟨0, 99⟩ (31 * msPerDay) [⟨1, {0}, false, some 0⟩]
      ⟨1, {0}, false, some 0⟩ (by simp)).2 0 rfl (by decide) rfl
  exact h.1.mpr (by norm_num [KICKED_AFTER, msPerDay])

/-- C5: the two classifier sets are disjoint, and every member placed in either
was unverified at snapshot time. -/
theorem classifier_invariant (cfg : RoleConfig) (now : ℤ) (members : List Member) :
    (check_members cfg now members).1 ∩ (check_members cfg now members).2 = ∅
    ∧ ∀ m : Member,
        (m ∈ (check_members cfg now members).1 ∨ m ∈ (check_members cfg now members).2) →
        is_verified cfg m = false := by
  constructor
  · rw [Finset.eq_empty_iff_forall_not_mem]
    intro m hmem
    rw [Finset.mem_inter, mem_check_members_fst, mem_check_members_snd] at hmem
    obtain ⟨⟨-, -, -, joined, hj, hle, -⟩, -, -, -, joined', hj', hkick⟩ := hmem
    rw [hj] at hj'
    cases hj'
    exact absurd hkick (not_lt.mpr hle)
  · intro m hmem
    rcases hmem with hmem | hmem
    · rw [mem_check_members_fst] at hmem
      exact hmem.2.1
    · rw [mem_check_members_snd] at hmem
      exact hmem.2.1

/-- Auxiliary: the success count of the executor fold. -/
theorem send_requests_foldl (rs : List ReqOutcome) (acc : ℕ × Finset ℕ) :
    (rs.foldl send_requests_step acc).1
      = acc.1 + rs.countP (· == ReqOutcome.success) := by
  induction rs generalizing acc with
  | nil => simp
  | cons r rs ih =>
    rw [List.foldl_cons, ih]
    cases r with
    | success =>
      rw [List.countP_cons_of_pos _ _ (by rfl)]
      show acc.1 + 1 + _ = _
      omega
    | httpError status =>
      rw [List.countP_cons_of_neg _ _ (by simp)]
      rfl

/-- C6: the batch executor returns the number of requests that completed
without a platform error, over the whole collection — a failing request never
prevents later requests from being counted (hence attempted); in particular a
batch of 10 with 3 transient platform errors interleaved returns 7. -/
theorem batch_executor_counts (rs : List ReqOutcome) :
    (send_requests rs).1 = rs.countP (· == ReqOutcome.success)
    ∧ send_requests
        [ReqOutcome.httpError 429, ReqOutcome.success, ReqOutcome.httpError 502,
         ReqOutcome.success, ReqOutcome.httpError 429, ReqOutcome.success,
         ReqOutcome.success, ReqOutcome.success, ReqOutcome.success,
         ReqOutcome.success] = (7, {429, 502}) := by
  constructor
  · rw [send_requests, send_requests_foldl]
    simp
  · decide

/-- C7: a member verified at execution time makes both per-member requests
no-ops: the kick request sends no message and kicks nobody, the role request
adds no role, and both count as successes. -/
theorem requests_noop_when_verified (cfg : RoleConfig) (m : Member)
    (dmForbidden : Bool) (kickError addError : Option ℕ) (role : ℕ)
    (hver : is_verified cfg m = true) :
    kick_request cfg m dmForbidden kickError = ([], ReqOutcome.success)
    ∧ role_request cfg m role addError = ([], ReqOutcome.success) := by
  constructor
  · unfold kick_request
    rw [if_pos hver]
  · unfold role_request
    rw [if_pos hver]

/-- C7 witness: a member holding a role beyond the default and marker roles is
left untouched by the kick request. -/
theorem requests_noop_when_verified_witness :
    kick_request ⟨0, 99⟩ ⟨4, {0, 5}, false, some 0⟩ false none
      = ([], ReqOutcome.success) :=
  (requests_noop_when_verified ⟨0, 99⟩ ⟨4, {0, 5}, false, some 0⟩ false none none 77
    (by decide)).1

/-- C8: with no persisted cursor the reminder task runs immediately; with a
cursor it sleeps exactly `max 0 (28 hours - (now - cursor timestamp))`; a
cursor 10 hours old yields an 18-hour delay. -/
theorem reminder_first_delay (now : ℤ) :
    before_first_ping none now = 0
    ∧ (∀ id : ℕ, before_first_ping (some id) now
        = max 0 ((REMINDER_FREQUENCY : ℤ) * msPerHour - (now - snowflake_time id)))
    ∧ before_first_ping (some 0) (DISCORD_EPOCH + 10 * msPerHour) = 18 * msPerHour := by
  refine ⟨rfl, fun id => max_comm _ _, by decide⟩

/-- C10: the reminder run persists the new cursor only after the send succeeds:
on a failed send the stored cursor is unchanged and no cursor write happens; on
a successful send the cursor write follows the send in the trace. -/
theorem reminder_cursor_persistence (cursor : Option ℕ) :
    ((ping_unverified cursor none).2 = cursor
      ∧ ∀ i, PingEv.cursorSet i ∉ (ping_unverified cursor none).1)
    ∧ (∀ newId, (ping_unverified cursor (some newId)).2 = some newId
        ∧ ∃ pre, (ping_unverified cursor (some newId)).1
            = pre ++ [PingEv.reminderSent newId, PingEv.cursorSet newId]) := by
  rcases cursor with _ | lastId
  · refine ⟨⟨rfl, ?_⟩, fun newId => ⟨rfl, [], rfl⟩⟩
    intro i h
    simp [ping_unverified] at h
  · refine ⟨⟨rfl, ?_⟩, fun newId => ⟨rfl, [PingEv.deleteAttempt lastId], rfl⟩⟩
    intro i h
    simp [ping_unverified] at h

/-- C3: in a run with a non-empty `for_kick`, a denial by the authorizer means
the kick executor is never invoked and the summary reports the count as not
authorized; conversely the executor is handed kick requests only when the
authorizer approved. -/
theorem kicks_require_authorization (cfg : RoleConfig) (now : ℤ)
    (members : List Member) (confirmationMsgId : ℕ) (coreDevIds : List ℕ)
    (events : List Reaction) (roleSuccesses kickSuccesses : Finset Member → ℕ)
    (hne : (check_members cfg now members).2 ≠ ∅) :
    ∀ res, update_unverified_members cfg now members confirmationMsgId coreDevIds
        events roleSuccesses kickSuccesses = some res →
      ((∀ prompted, verify_kick (check_members cfg now members).2.card members.length
          KICK_CONFIRMATION_THRESHOLD confirmationMsgId coreDevIds events
            = some (false, prompted) →
        res.kicksIssued = none ∧
        res.kickReport = KickReport.notAuthorized (check_members cfg now members).2.card)
      ∧ (∀ s, res.kicksIssued = some s →
          ∃ prompted, verify_kick (check_members cfg now members).2.card members.length
            KICK_CONFIRMATION_THRESHOLD confirmationMsgId coreDevIds events
              = some (true, prompted))) := by
  intro res hres
  simp only [update_unverified_members] at hres
  rw [if_neg hne] at hres
  split at hres
  · exact Option.noConfusion hres
  · next approved prompted hv =>
    cases approved with
    | false =>
      rw [if_neg (by decide)] at hres
      cases hres
      exact ⟨fun p hp => ⟨rfl, rfl⟩, fun s hs => Option.noConfusion hs⟩
    | true =>
      rw [if_pos rfl] at hres
      cases hres
      refine ⟨fun p hp => ?_, fun s hs => ⟨prompted, hv⟩⟩
      rw [hv] at hp
      simp at hp

/-- C3 witness: a one-member guild whose sole member is 31 days unverified; the
prompt times out (denial), so the run reports "not authorized" and issues no
kick. -/
theorem kicks_require_authorization_witness :
    ∃ res, update_unverified_members ⟨0, 99⟩ (31 * msPerDay)
        [⟨1, {0}, false, some 0⟩] 7 [3] [] (fun _ => 0) (fun s => s.card)
        = some res ∧
      res.kicksIssued = none ∧ res.kickReport = KickReport.notAuthorized 1 := by
  have hne : (check_members ⟨0, 99⟩ (31 * msPerDay) [⟨1, {0}, false, some 0⟩]).2 ≠ ∅ := by
    decide
  have hcard : (check_members ⟨0, 99⟩ (31 * msPerDay) [⟨1, {0}, false, some 0⟩]).2.card = 1 := by
    decide
  have hvk : verify_kick 1 1 KICK_CONFIRMATION_THRESHOLD 7 [3] [] = some (false, true) := by
    rw [verify_kick_of_pos 1 KICK_CONFIRMATION_THRESHOLD 7 [3] [] (by norm_num)]
    rw [if_neg (by norm_num [KICK_CONFIRMATION_THRESHOLD])]
    rfl
  have hupd : update_unverified_members ⟨0, 99⟩ (31 * msPerDay)
      [⟨1, {0}, false, some 0⟩] 7 [3] [] (fun _ => 0) (fun s => s.card)
      = some ⟨RoleReport.noUsers,
          KickReport.notAuthorized (check_members ⟨0, 99⟩ (31 * msPerDay)
            [⟨1, {0}, false, some 0⟩]).2.card, none⟩ := by
    simp only [update_unverified_members]
    rw [if_neg hne, if_pos (by decide), hcard]
    show (match verify_kick 1 1 KICK_CONFIRMATION_THRESHOLD 7 [3] [] with
      | none => none
      | some (approved, _) => _) = _
    rw [hvk]
    rfl
  have h := kicks_require_authorization ⟨0, 99⟩ (31 * msPerDay)
      [⟨1, {0}, false, some 0⟩] 7 [3] [] (fun _ => 0) (fun s => s.card) hne _ hupd
  refine ⟨_, hupd, ?_, ?_⟩
  · exact (h.1 true (by rw [hcard]; exact hvk)).1
  · rw [(h.1 true (by rw [hcard]; exact hvk)).2, hcard]

end Verification
